import Mathlib

/-!
Shallow embedding of the price tracking and notification core of the
buy-it-for-life tracker (src/utils/price_tracker.py together with the
document models of src/database/database.py).

Prices are modelled as rationals, timestamps as abstract naturals; the
results of the external collaborators (the store lookup Item.get, the
scraped price from extract_price, and the mail transport) are passed in
as parameters.  Effects (document saves, inserts, outgoing emails) are
returned explicitly in result records.
-/

namespace BIFL

/-- PriceHistory entry, from database/database.py: a price observation with
its date. -/
structure PriceHistory where
  price : ℚ
  date : Nat
  deriving DecidableEq

/-- RetailerLink, from database/database.py: one (retailer, url) pairing
tracked for an item. -/
structure RetailerLink where
  name : String
  url : String
  current_price : Option ℚ := none
  price_dropped : Bool := false
  last_checked : Option Nat := none
  deriving DecidableEq

/-- UserNotified, from database/database.py: one delivery receipt on a
PriceUpdate. -/
structure UserNotified where
  user_id : String
  sent_at : Nat
  deriving DecidableEq

/-- User, from database/database.py (the fields the notification core reads:
auth0_id and email; email is a plain string, so a falsy email is the empty
string). -/
structure User where
  auth0_id : String
  email : String
  deriving DecidableEq

/-- Item, from database/database.py (the fields the price tracking core
reads or writes). -/
structure Item where
  id : String
  title : String
  current_price : Option ℚ := none
  price_history : List PriceHistory := []
  retailer_links : List RetailerLink := []
  subscribers : List String := []
  is_on_sale : Bool := false
  deriving DecidableEq

/-- Alert, from database/database.py. -/
structure Alert where
  user_id : String
  item_id : String
  price_threshold : Option ℚ := none
  price_drop_percentage : Option ℚ := none
  is_active : Bool := true
  last_triggered : Option Nat := none
  deriving DecidableEq

/-- PriceUpdate, from database/database.py: the event record created once
per detected drop. -/
structure PriceUpdate where
  item_id : String
  retailer : String
  old_price : ℚ
  new_price : ℚ
  percentage_change : ℚ
  notifications_sent : Bool := false
  users_notified : List UserNotified := []
  deriving DecidableEq

/-! Price text normalization (parse_price in src/utils/price_tracker.py). -/

/-- Characters kept by the normalization step of parse_price: the re.sub
removes every character other than a digit or the decimal point (the comma
replace that precedes it is subsumed, a comma not being in that class). -/
def priceChar (c : Char) : Bool := c.isDigit || c == '.'

/-- The normalization step of parse_price applied to the character list of
the input text. -/
def stripPrice (s : List Char) : List Char := s.filter priceChar

/-- Value of a run of decimal digit characters read left to right, as the
int constructor would accumulate it. -/
def digitsToNat (ds : List Char) : Nat := ds.foldl (fun n c => n * 10 + (c.toNat - 48)) 0

/-- Split a character list at every dot, keeping the (possibly empty)
segments between the dots. -/
def splitDot (s : List Char) : List (List Char) :=
  match s with
  | [] => [[]]
  | c :: rest =>
    if c == '.' then [] :: splitDot rest
    else
      match splitDot rest with
      | [] => [[c]]
      | h :: t => (c :: h) :: t

/-- Model of the Python float constructor restricted to strings made of
digits and dots (the only characters stripPrice lets through): it succeeds
iff the string holds at least one digit and at most one dot, and the value
is the integer part plus the fraction part scaled down. -/
def pyFloat? (s : List Char) : Option ℚ :=
  if s.any Char.isDigit then
    match splitDot s with
    | [ip] => some (digitsToNat ip : ℚ)
    | [ip, fp] => some ((digitsToNat ip : ℚ) + (digitsToNat fp : ℚ) / (10 : ℚ) ^ fp.length)
    | _ => none
  else none

/-- parse_price from src/utils/price_tracker.py: None on empty input, else
strip everything but digits and the decimal point and parse as a float,
with a failed parse yielding None. -/
def parse_price (s : List Char) : Option ℚ :=
  if s.isEmpty then none
  else pyFloat? (stripPrice s)

/-- Decimal digit characters of a natural number, most significant first
(empty for zero). -/
def natChars (n : Nat) : List Char :=
  ((Nat.digits 10 n).reverse).map (fun d => Char.ofNat (48 + d))

/-- Integer part of a fixed-point rendering of n / 10 ^ k: its digit
characters, or a single zero digit when it vanishes. -/
def renderIp (n k : Nat) : List Char :=
  if n / 10 ^ k = 0 then ['0'] else natChars (n / 10 ^ k)

/-- Fixed-point rendering of n / 10 ^ k: the integer part and, for
positive k, a dot followed by exactly k fraction digits. -/
def renderDecAux (n k : Nat) : List Char :=
  if k = 0 then renderIp n k
  else renderIp n k
    ++ '.' :: (List.replicate (k - (natChars (n % 10 ^ k)).length) '0' ++ natChars (n % 10 ^ k))

/-- Decimal rendering of a rational q whose product with 10 ^ k is a
natural number, with k digits after the point. -/
def renderDec (q : ℚ) (k : Nat) : List Char :=
  renderDecAux (q * (10 : ℚ) ^ k).num.toNat k

/-! Alert matching and notification (notify_subscribers in
src/utils/price_tracker.py). -/

/-- Price threshold clause of the alert loop: the threshold is set and the
new price is at or below it. -/
def thresholdHit (a : Alert) (pu : PriceUpdate) : Bool :=
  match a.price_threshold with
  | some t => decide (pu.new_price ≤ t)
  | none => false

/-- Percentage clause of the alert loop: the drop percentage is set and the
percentage change reaches it. -/
def pctHit (a : Alert) (pu : PriceUpdate) : Bool :=
  match a.price_drop_percentage with
  | some p => decide (pu.percentage_change ≥ p)
  | none => false

/-- Default clause of the alert loop: neither criterion is set (a bare
subscription). -/
def bareAlert (a : Alert) : Bool :=
  a.price_threshold.isNone && a.price_drop_percentage.isNone

/-- An alert matches the drop when any of the three clauses fires. -/
def alertMatches (a : Alert) (pu : PriceUpdate) : Bool :=
  thresholdHit a pu || pctHit a pu || bareAlert a

/-- The alert as written back after a clause fires: last_triggered set to
the current instant. -/
def triggeredAlert (now : Nat) (a : Alert) : Alert :=
  {a with last_triggered := some now}

/-- The alert saves the loop body performs for one alert: one save per
clause that fires, each writing last_triggered := now. -/
def alertSaves (now : Nat) (pu : PriceUpdate) (a : Alert) : List Alert :=
  (if thresholdHit a pu then [triggeredAlert now a] else []) ++
  (if pctHit a pu then [triggeredAlert now a] else []) ++
  (if bareAlert a then [triggeredAlert now a] else [])

/-- The should_notify loop of notify_subscribers over one user's alerts:
returns the accumulated should_notify flag and the alert saves performed,
in order. -/
def evalAlerts (now : Nat) (pu : PriceUpdate) (alerts : List Alert) : Bool × List Alert :=
  alerts.foldl (fun acc a => (acc.1 || alertMatches a pu, acc.2 ++ alertSaves now pu a)) (false, [])

/-- One step of the grouping dictionary build: append the alert to its
user's bucket, or open a new bucket at the end (Python dicts preserve
insertion order). -/
def insertAlert (groups : List (String × List Alert)) (a : Alert) : List (String × List Alert) :=
  match groups with
  | [] => [(a.user_id, [a])]
  | (u, l) :: rest =>
    if u = a.user_id then (u, l ++ [a]) :: rest
    else (u, l) :: insertAlert rest a

/-- Group alerts by user id, in first-appearance order. -/
def groupByUser (alerts : List Alert) : List (String × List Alert) :=
  alerts.foldl insertAlert []

/-- User.find_one on auth0_id: the first stored user with that id. -/
def findUser (users : List User) (uid : String) : Option User :=
  users.find? (fun u => u.auth0_id == uid)

/-- Observable outcome of one notify_subscribers run: the final state of
the PriceUpdate, the alert saves performed, the emails handed to the mail
transport with the transport's reported result, and whether the
PriceUpdate was saved. -/
structure NotifyResult where
  price_update : PriceUpdate
  saved_alerts : List Alert
  emails_sent : List (String × Bool)
  pu_saved : Bool
  deriving DecidableEq

/-- notify_subscribers from src/utils/price_tracker.py.  activeAlerts is
the result of the active-alert query for the item, users the stored users,
send the mail transport (recipient email to reported success).  Returns
immediately when the item has no subscribers; otherwise marks
notifications_sent, groups the alerts by user, skips users that do not
resolve or have a falsy email, evaluates every alert of each remaining
user (saving last_triggered per fired clause), emails each user with a
matched alert — discarding the transport result — and appends one receipt
per emailed user before saving the PriceUpdate. -/
def notify_subscribers (now : Nat) (item : Item) (activeAlerts : List Alert)
    (users : List User) (send : String → Bool) (pu : PriceUpdate) : NotifyResult :=
  if item.subscribers.isEmpty then
    ⟨pu, [], [], false⟩
  else
    let pu1 := {pu with notifications_sent := true}
    let groups := groupByUser activeAlerts
    let processed := groups.filterMap (fun g =>
      match findUser users g.1 with
      | none => none
      | some u => if u.email = "" then none else some (g.1, u.email, evalAlerts now pu1 g.2))
    let saved := processed.flatMap (fun t => t.2.2.2)
    let selected := processed.filter (fun t => t.2.2.1)
    let emails := selected.map (fun t => (t.2.1, send t.2.1))
    let receipts := selected.map (fun t => UserNotified.mk t.1 now)
    ⟨{pu1 with users_notified := pu1.users_notified ++ receipts}, saved, emails, true⟩

/-! Price drop detection (check_price_for_link in
src/utils/price_tracker.py). -/

/-- Python's min over a nonempty list, None for the empty list. -/
def pyMin (l : List ℚ) : Option ℚ :=
  match l with
  | [] => none
  | x :: xs => some (xs.foldl min x)

/-- Final step of the update branch: recompute the item's current_price as
the minimum of the known link prices, when any link has one. -/
def updateCurrentPrice (item : Item) : Item :=
  match pyMin (item.retailer_links.filterMap RetailerLink.current_price) with
  | none => item
  | some m => {item with current_price := some m}

/-- Observable outcome of one check_price_for_link run: the item state
saved (none when no save happened), the PriceUpdate records inserted, the
notify_subscribers outcome when it ran, and the returned flag. -/
structure CheckResult where
  saved_item : Option Item
  inserted_updates : List PriceUpdate
  notify : Option NotifyResult
  price_dropped : Bool
  deriving DecidableEq

/-- Outcome of the early-return paths: nothing written, False returned. -/
def CheckResult.noop : CheckResult := ⟨none, [], none, false⟩

/-- check_price_for_link from src/utils/price_tracker.py.  item? is the
Item.get result for item_id, price? the extract_price result for the
link's url; activeAlerts, users and send feed the notification pipeline.
Finds the link by url, and when the extracted price is new or different
from the stored one updates the link, appends to the price history on a
first observation or a strict drop, and on a strict drop against a stored
price flags the link and the item, inserts a PriceUpdate and notifies
subscribers; finally recomputes the minimum current price and saves the
item.  An unchanged price returns without writing anything. -/
def check_price_for_link (now : Nat) (item_id : String) (item? : Option Item)
    (url : String) (price? : Option ℚ) (activeAlerts : List Alert)
    (users : List User) (send : String → Bool) : CheckResult :=
  match item? with
  | none => CheckResult.noop
  | some item =>
    match price? with
    | none => CheckResult.noop
    | some price =>
      match item.retailer_links.findIdx? (fun l => l.url == url) with
      | none => CheckResult.noop
      | some index =>
        match item.retailer_links[index]? with
        | none => CheckResult.noop
        | some link0 =>
          let link1 : RetailerLink :=
            {link0 with current_price := some price, last_checked := some now}
          let links1 := item.retailer_links.set index link1
          match link0.current_price with
          | none =>
            let item2 : Item :=
              {item with retailer_links := links1,
                         price_history := item.price_history ++ [⟨price, now⟩]}
            ⟨some (updateCurrentPrice item2), [], none, false⟩
          | some old =>
            if price = old then CheckResult.noop
            else if price < old then
              let links2 := links1.set index {link1 with price_dropped := true}
              let pct := (old - price) / old * 100
              let pu0 : PriceUpdate := ⟨item_id, link0.name, old, price, pct, false, []⟩
              let item3 : Item :=
                {item with retailer_links := links2,
                           price_history := item.price_history ++ [⟨price, now⟩],
                           is_on_sale := true}
              let nres := notify_subscribers now item3 activeAlerts users send pu0
              ⟨some (updateCurrentPrice item3), [pu0], some nres, true⟩
            else
              let item2 : Item := {item with retailer_links := links1}
              ⟨some (updateCurrentPrice item2), [], none, false⟩

/-! Batch entry point (check_prices_and_notify in
src/utils/price_tracker.py). -/

/-- The try/except wrapped around the body of check_price_for_link: a
raised error is caught and reported as False (no drop). -/
def check_link_caught (r : Except String Bool) : Bool :=
  match r with
  | .ok b => b
  | .error _ => false

/-- check_prices_and_notify from src/utils/price_tracker.py, abstracting
each item of the catalog query to the list of per-link check outcomes (an
outcome may be a raised error, which check_price_for_link catches).  The
catalog query itself may fail, which the outer try/except reports as zero
counts.  Returns (items_checked, price_drops_found). -/
def check_prices_and_notify
    (catalog : Except String (List (List (Except String Bool)))) : Nat × Nat :=
  match catalog with
  | .error _ => (0, 0)
  | .ok items =>
    items.foldl (fun acc linkResults =>
      (acc.1 + 1,
       linkResults.foldl (fun n r => if check_link_caught r then n + 1 else n) acc.2)) (0, 0)

/-! Concrete fixtures used by witness theorems. -/

/-- A stored retailer link with a known price of 100. -/
def witLink : RetailerLink := { name := "Amazon", url := "http://a", current_price := some 100 }

/-- A freshly added retailer link with no stored price yet. -/
def witLinkNew : RetailerLink := { name := "Amazon", url := "http://a" }

/-- An item with one subscriber and one priced link. -/
def witItem : Item :=
  { id := "i1", title := "Pan", subscribers := ["u1"], retailer_links := [witLink] }

/-- The same item with an unpriced link. -/
def witItemNew : Item :=
  { id := "i1", title := "Pan", subscribers := ["u1"], retailer_links := [witLinkNew] }

/-- The same item with an empty subscribers list. -/
def witItemNoSubs : Item := { id := "i1", title := "Pan", retailer_links := [witLink] }

/-- A bare alert (no threshold, no percentage) of user u1 on item i1. -/
def witAlert : Alert := { user_id := "u1", item_id := "i1" }

/-- The stored user behind the alert, with a nonempty email. -/
def witUser : User := ⟨"u1", "u1@example.com"⟩

/-- A price-drop event from 100 to 80 (20 percent). -/
def witPU : PriceUpdate :=
  { item_id := "i1", retailer := "Amazon", old_price := 100, new_price := 80,
    percentage_change := 20 }

/-- A batch of two items, the first with three link outcomes of which one
raises and one finds a drop, the second with one dropping link. -/
def witBatch : List (List (Except String Bool)) :=
  [[.ok true, .error "boom", .ok false], [.ok true]]

/-! Lemmas about the alert evaluation loop. -/

/-- Unfolding of the foldl in evalAlerts over an arbitrary accumulator. -/
theorem evalAlerts_foldl (now : Nat) (pu : PriceUpdate) :
    ∀ (as : List Alert) (b : Bool) (l : List Alert),
      as.foldl (fun acc a => (acc.1 || alertMatches a pu, acc.2 ++ alertSaves now pu a)) (b, l)
        = (b || as.any (fun a => alertMatches a pu), l ++ as.flatMap (alertSaves now pu)) := by
  intro as
  induction as with
  | nil => intro b l; simp
  | cons a as ih =>
    intro b l
    simp only [List.foldl_cons, ih, List.any_cons, List.flatMap_cons, Bool.or_assoc,
      List.append_assoc]

/-- evalAlerts computes the disjunction of the matches and concatenates the
per-alert saves. -/
theorem evalAlerts_eq (now : Nat) (pu : PriceUpdate) (as : List Alert) :
    evalAlerts now pu as
      = (as.any (fun a => alertMatches a pu), as.flatMap (alertSaves now pu)) := by
  unfold evalAlerts
  rw [evalAlerts_foldl]
  simp

/-- The boolean match condition unfolded into the three clauses of the
specification. -/
theorem alertMatches_true_iff (a : Alert) (pu : PriceUpdate) :
    alertMatches a pu = true ↔
      ((∃ t, a.price_threshold = some t ∧ pu.new_price ≤ t)
        ∨ (∃ pc, a.price_drop_percentage = some pc ∧ pc ≤ pu.percentage_change)
        ∨ (a.price_threshold = none ∧ a.price_drop_percentage = none)) := by
  unfold alertMatches thresholdHit pctHit bareAlert
  cases ht : a.price_threshold <;> cases hp : a.price_drop_percentage <;>
    simp [ht, hp, ge_iff_le]

/-- Setting notifications_sent does not change which alerts match. -/
theorem alertMatches_set_sent (a : Alert) (pu : PriceUpdate) :
    alertMatches a {pu with notifications_sent := true} = alertMatches a pu := rfl

/-- A matching alert contributes its own triggered copy to the saves of the
loop body. -/
theorem mem_alertSaves_self (now : Nat) (pu : PriceUpdate) (a : Alert)
    (h : alertMatches a pu = true) : triggeredAlert now a ∈ alertSaves now pu a := by
  unfold alertMatches at h
  unfold alertSaves
  by_cases h1 : thresholdHit a pu <;> by_cases h2 : pctHit a pu <;>
    by_cases h3 : bareAlert a <;> simp_all

/-- Every save of the loop body is the triggered copy of a matching alert. -/
theorem mem_alertSaves (now : Nat) (pu : PriceUpdate) (a b : Alert)
    (h : b ∈ alertSaves now pu a) :
    b = triggeredAlert now a ∧ alertMatches a pu = true := by
  unfold alertSaves at h
  unfold alertMatches
  by_cases h1 : thresholdHit a pu <;> by_cases h2 : pctHit a pu <;>
    by_cases h3 : bareAlert a <;> simp_all

/-! Lemmas about the batch counters. -/

/-- The inner foldl counts the links whose caught outcome is a drop. -/
theorem count_foldl (ls : List (Except String Bool)) :
    ∀ n : Nat, ls.foldl (fun n r => if check_link_caught r then n + 1 else n) n
      = n + (ls.filter check_link_caught).length := by
  induction ls with
  | nil => intro n; simp
  | cons r ls ih =>
    intro n
    by_cases h : check_link_caught r <;>
      (simp [List.foldl_cons, h, ih, List.filter_cons]; try omega)

/-- The outer foldl counts the items and sums the per-item drop counts. -/
theorem batch_foldl :
    ∀ (items : List (List (Except String Bool))) (a b : Nat),
      items.foldl (fun acc linkResults =>
          (acc.1 + 1,
           linkResults.foldl (fun n r => if check_link_caught r then n + 1 else n) acc.2)) (a, b)
        = (a + items.length,
           b + (items.map (fun ls => (ls.filter check_link_caught).length)).sum) := by
  intro items
  induction items with
  | nil => intro a b; simp
  | cons ls items ih =>
    intro a b
    rw [List.foldl_cons, count_foldl, ih]
    simp only [List.map_cons, List.sum_cons, List.length_cons, Prod.mk.injEq]
    constructor <;> omega

/-! Lemmas about the grouping of alerts by user. -/

/-- Inserting an alert puts it into a bucket keyed by its user id. -/
theorem insertAlert_self (gs : List (String × List Alert)) (a : Alert) :
    ∃ g ∈ insertAlert gs a, g.1 = a.user_id ∧ a ∈ g.2 := by
  induction gs with
  | nil => exact ⟨(a.user_id, [a]), by simp [insertAlert]⟩
  | cons p rest ih =>
    obtain ⟨u, l⟩ := p
    by_cases hu : u = a.user_id
    · exact ⟨(u, l ++ [a]), by simp [insertAlert, hu]⟩
    · obtain ⟨g, hg, h1, h2⟩ := ih
      exact ⟨g, by simp [insertAlert, hu, hg], h1, h2⟩

/-- Inserting an alert keeps every existing bucket's key and contents. -/
theorem insertAlert_preserve (gs : List (String × List Alert)) (a : Alert)
    (g : String × List Alert) (hg : g ∈ gs) :
    ∃ g' ∈ insertAlert gs a, g'.1 = g.1 ∧ ∀ x ∈ g.2, x ∈ g'.2 := by
  induction gs with
  | nil => cases hg
  | cons p rest ih =>
    obtain ⟨u, l⟩ := p
    rcases List.mem_cons.1 hg with h | h
    · subst h
      by_cases hu : u = a.user_id
      · exact ⟨(u, l ++ [a]), by simp [insertAlert, hu], rfl, fun x hx => by simp [hx]⟩
      · exact ⟨(u, l), by simp [insertAlert, hu], rfl, fun x hx => hx⟩
    · by_cases hu : u = a.user_id
      · exact ⟨g, by simp [insertAlert, hu, h], rfl, fun x hx => hx⟩
      · obtain ⟨g', hg', h1, h2⟩ := ih h
        exact ⟨g', by simp [insertAlert, hu]; exact Or.inr hg', h1, h2⟩

/-- Folding more alerts in keeps every existing bucket's key and
contents. -/
theorem foldl_insert_preserve :
    ∀ (as : List Alert) (gs : List (String × List Alert)) (g : String × List Alert),
      g ∈ gs → ∃ g' ∈ as.foldl insertAlert gs, g'.1 = g.1 ∧ ∀ x ∈ g.2, x ∈ g'.2 := by
  intro as
  induction as with
  | nil => exact fun gs g hg => ⟨g, hg, rfl, fun x hx => hx⟩
  | cons a as ih =>
    intro gs g hg
    obtain ⟨g', hg', h1, h2⟩ := insertAlert_preserve gs a g hg
    obtain ⟨g'', hg'', h1', h2'⟩ := ih (insertAlert gs a) g' hg'
    exact ⟨g'', hg'', h1'.trans h1, fun x hx => h2' x (h2 x hx)⟩

/-- Every folded-in alert lands in the bucket keyed by its user id. -/
theorem foldl_insert_self :
    ∀ (as : List Alert) (gs : List (String × List Alert)) (a : Alert), a ∈ as →
      ∃ g ∈ as.foldl insertAlert gs, g.1 = a.user_id ∧ a ∈ g.2 := by
  intro as
  induction as with
  | nil => intro _ _ h; cases h
  | cons b as ih =>
    intro gs a ha
    rcases List.mem_cons.1 ha with h | h
    · subst h
      obtain ⟨g, hg, h1, h2⟩ := insertAlert_self gs a
      obtain ⟨g', hg', h1', h2'⟩ := foldl_insert_preserve as (insertAlert gs a) g hg
      exact ⟨g', hg', h1'.trans h1, h2' a h2⟩
    · exact ih (insertAlert gs b) a h

/-- Every alert is in the bucket of its own user id after grouping. -/
theorem groupByUser_self (as : List Alert) (a : Alert) (ha : a ∈ as) :
    ∃ g ∈ groupByUser as, g.1 = a.user_id ∧ a ∈ g.2 :=
  foldl_insert_self as [] a ha

/-- An element of a bucket after one insertion was in a bucket before, or
is the inserted alert. -/
theorem mem_insertAlert_src (gs : List (String × List Alert)) (a : Alert)
    (g : String × List Alert) (x : Alert) (hg : g ∈ insertAlert gs a) (hx : x ∈ g.2) :
    (∃ g0 ∈ gs, x ∈ g0.2) ∨ x = a := by
  induction gs with
  | nil =>
    simp [insertAlert] at hg
    subst hg
    simp at hx
    exact Or.inr hx
  | cons p rest ih =>
    obtain ⟨u, l⟩ := p
    by_cases hu : u = a.user_id
    · simp [insertAlert, hu] at hg
      rcases hg with hg | hg
      · subst hg
        simp at hx
        rcases hx with hx | hx
        · exact Or.inl ⟨(u, l), by simp, hx⟩
        · exact Or.inr hx
      · exact Or.inl ⟨g, by simp [hg], hx⟩
    · simp only [insertAlert, if_neg hu, List.mem_cons] at hg
      rcases hg with hg | hg
      · subst hg
        exact Or.inl ⟨(u, l), by simp, hx⟩
      · rcases ih hg with ⟨g0, hg0, hx0⟩ | h
        · exact Or.inl ⟨g0, by simp [hg0], hx0⟩
        · exact Or.inr h

/-- An element of a bucket after folding came from an initial bucket or
from the folded-in alerts. -/
theorem mem_foldl_insert_src :
    ∀ (as : List Alert) (gs : List (String × List Alert)) (g : String × List Alert) (x : Alert),
      g ∈ as.foldl insertAlert gs → x ∈ g.2 → (∃ g0 ∈ gs, x ∈ g0.2) ∨ x ∈ as := by
  intro as
  induction as with
  | nil => exact fun gs g x hg hx => Or.inl ⟨g, hg, hx⟩
  | cons a as ih =>
    intro gs g x hg hx
    rcases ih (insertAlert gs a) g x hg hx with ⟨g0, hg0, hx0⟩ | h
    · rcases mem_insertAlert_src gs a g0 x hg0 hx0 with ⟨g1, hg1, hx1⟩ | h'
      · exact Or.inl ⟨g1, hg1, hx1⟩
      · exact Or.inr (by simp [h'])
    · exact Or.inr (by simp [h])

/-- Bucket contents after grouping are alerts of the grouped list. -/
theorem groupByUser_src (as : List Alert) (g : String × List Alert) (x : Alert)
    (hg : g ∈ groupByUser as) (hx : x ∈ g.2) : x ∈ as := by
  rcases mem_foldl_insert_src as [] g x hg hx with ⟨g0, hg0, _⟩ | h
  · cases hg0
  · exact h

/-- The keys after one insertion: unchanged when the user already has a
bucket, else extended by the new key. -/
theorem insertAlert_keys (gs : List (String × List Alert)) (a : Alert) :
    (insertAlert gs a).map Prod.fst
      = if a.user_id ∈ gs.map Prod.fst then gs.map Prod.fst
        else gs.map Prod.fst ++ [a.user_id] := by
  induction gs with
  | nil => simp [insertAlert]
  | cons p rest ih =>
    obtain ⟨u, l⟩ := p
    by_cases hu : u = a.user_id
    · simp [insertAlert, hu]
    · by_cases hm : a.user_id ∈ rest.map Prod.fst <;>
        simp [insertAlert, hu, ih, hm, Ne.symm hu]

/-- One insertion keeps the bucket keys pairwise distinct. -/
theorem insertAlert_keys_nodup (gs : List (String × List Alert)) (a : Alert)
    (h : (gs.map Prod.fst).Nodup) : ((insertAlert gs a).map Prod.fst).Nodup := by
  rw [insertAlert_keys]
  split
  · exact h
  · next hm => simp [List.nodup_append, h, hm]

/-- Folding keeps the bucket keys pairwise distinct. -/
theorem foldl_insert_keys_nodup :
    ∀ (as : List Alert) (gs : List (String × List Alert)),
      (gs.map Prod.fst).Nodup → ((as.foldl insertAlert gs).map Prod.fst).Nodup := by
  intro as
  induction as with
  | nil => exact fun gs h => h
  | cons a as ih => exact fun gs h => ih (insertAlert gs a) (insertAlert_keys_nodup gs a h)

/-- Grouping produces pairwise distinct user ids. -/
theorem groupByUser_keys_nodup (as : List Alert) : ((groupByUser as).map Prod.fst).Nodup :=
  foldl_insert_keys_nodup as [] (by simp)

/-- Mapping the key out of a key-preserving filterMap yields a sublist of
the original keys. -/
theorem filterMap_fst_sublist {β γ : Type} (f : String × β → Option (String × γ))
    (h : ∀ g t, f g = some t → t.1 = g.1) :
    ∀ gs : List (String × β),
      ((gs.filterMap f).map (fun t => t.1)).Sublist (gs.map Prod.fst) := by
  intro gs
  induction gs with
  | nil => simp
  | cons g gs ih =>
    rw [List.filterMap_cons]
    cases hf : f g with
    | none => exact ih.cons g.1
    | some t =>
      rw [List.map_cons, List.map_cons, h g t hf]
      exact ih.cons₂ g.1

/-- Claim C2: a user with at least one active alert on the item is selected
for notification (the should_notify outcome of the alert evaluation loop)
iff some alert of theirs has a threshold at or above the new price, or a
drop percentage at or below the percentage change, or neither field set. -/
theorem claim_C2 (now : Nat) (pu : PriceUpdate) (alerts : List Alert) (_h : alerts ≠ []) :
    (evalAlerts now pu alerts).1 = true ↔
      ∃ a ∈ alerts,
        (∃ t, a.price_threshold = some t ∧ pu.new_price ≤ t)
        ∨ (∃ pc, a.price_drop_percentage = some pc ∧ pc ≤ pu.percentage_change)
        ∨ (a.price_threshold = none ∧ a.price_drop_percentage = none) := by
  rw [evalAlerts_eq]
  simp only [List.any_eq_true, alertMatches_true_iff]

/-- Witness for claim C2: a bare alert selects its user on the 100 to 80
drop. -/
theorem claim_C2_witness :
    (evalAlerts 0 witPU [witAlert]).1 = true ↔
      ∃ a ∈ [witAlert],
        (∃ t, a.price_threshold = some t ∧ witPU.new_price ≤ t)
        ∨ (∃ pc, a.price_drop_percentage = some pc ∧ pc ≤ witPU.percentage_change)
        ∨ (a.price_threshold = none ∧ a.price_drop_percentage = none) :=
  claim_C2 0 witPU [witAlert] (by simp)

/-- Claim C3 counterexample: with a nonempty subscribers list but no
matching alert at all, no email delivery succeeds (none is even attempted),
yet notifications_sent is set to true — refuting the claim that the flag
remains false when no delivery succeeds. -/
theorem claim_C3_counterexample :
    (notify_subscribers 0 witItem [] [] (fun _ => false) witPU).emails_sent = []
    ∧ (notify_subscribers 0 witItem [] [] (fun _ => false) witPU).price_update.notifications_sent
        = true := by
  constructor <;> rfl

/-- Claim C3 (amended): notify_subscribers sets notifications_sent to true
whenever the subscribers list is nonempty, regardless of delivery success;
the flag survives unchanged only when the subscribers list is empty. -/
theorem claim_C3 (now : Nat) (item : Item) (alerts : List Alert) (users : List User)
    (send : String → Bool) (pu : PriceUpdate) :
    (item.subscribers ≠ [] →
      (notify_subscribers now item alerts users send pu).price_update.notifications_sent = true)
    ∧ (item.subscribers = [] →
      (notify_subscribers now item alerts users send pu).price_update = pu) := by
  unfold notify_subscribers
  constructor
  · intro h
    rw [if_neg (by simpa [List.isEmpty_iff] using h)]
  · intro h
    rw [if_pos (by simpa [List.isEmpty_iff] using h)]

/-- Witness for claim C3: both branches at concrete inputs. -/
theorem claim_C3_witness :
    (notify_subscribers 0 witItem [witAlert] [witUser] (fun _ => false)
        witPU).price_update.notifications_sent = true
    ∧ (notify_subscribers 0 witItemNoSubs [witAlert] [witUser] (fun _ => false)
        witPU).price_update = witPU :=
  ⟨(claim_C3 0 witItem [witAlert] [witUser] (fun _ => false) witPU).1 (by simp [witItem]),
   (claim_C3 0 witItemNoSubs [witAlert] [witUser] (fun _ => false) witPU).2 rfl⟩

/-- Claim C5: when a stored price exists for the link and the freshly
extracted price equals it, check_price_for_link performs no write at all:
no item save (so last_checked is not refreshed), no PriceUpdate insert, no
notification, and False is returned. -/
theorem claim_C5 (now : Nat) (itemId url : String) (p : ℚ) (item : Item) (i : Nat)
    (link0 : RetailerLink) (alerts : List Alert) (users : List User) (send : String → Bool)
    (hidx : item.retailer_links.findIdx? (fun l => l.url == url) = some i)
    (hget : item.retailer_links[i]? = some link0)
    (hstored : link0.current_price = some p) :
    check_price_for_link now itemId (some item) url (some p) alerts users send
      = CheckResult.noop := by
  simp only [check_price_for_link, hidx, hget, hstored]
  simp

/-- Witness for claim C5: re-extracting the stored price 100 writes
nothing. -/
theorem claim_C5_witness :
    check_price_for_link 7 "i1" (some witItem) "http://a" (some 100) [] [] (fun _ => false)
      = CheckResult.noop :=
  claim_C5 7 "i1" "http://a" 100 witItem 0 witLink [] [] (fun _ => false)
    (by decide) (by decide) (by decide)

/-- Claim C7: the batch entry point returns zero counts on an empty catalog
and on a catalog listing failure, and otherwise counts every item and sums,
per item, the links whose caught outcome reports a drop — an individual
link failure is counted as no drop and stops nothing. -/
theorem claim_C7 :
    check_prices_and_notify (.ok []) = (0, 0)
    ∧ (∀ e : String, check_prices_and_notify (.error e) = (0, 0))
    ∧ ∀ items : List (List (Except String Bool)),
        check_prices_and_notify (.ok items)
          = (items.length, (items.map (fun ls => (ls.filter check_link_caught).length)).sum) := by
  refine ⟨rfl, fun e => rfl, fun items => ?_⟩
  exact (batch_foldl items 0 0).trans (by simp)

/-- Witness for claim C7: a batch where one link raises still counts the
other drops and both items. -/
theorem claim_C7_witness :
    check_prices_and_notify (.ok witBatch)
      = (witBatch.length, (witBatch.map (fun ls => (ls.filter check_link_caught).length)).sum) :=
  claim_C7.2.2 witBatch

/-- Claim C9: with an empty subscribers list, notify_subscribers returns at
once: the PriceUpdate is untouched and unsaved, no alert is written, no
email is sent — whatever alerts exist for the item. -/
theorem claim_C9 (now : Nat) (item : Item) (alerts : List Alert) (users : List User)
    (send : String → Bool) (pu : PriceUpdate) (h : item.subscribers = []) :
    notify_subscribers now item alerts users send pu = ⟨pu, [], [], false⟩ := by
  unfold notify_subscribers
  rw [if_pos (by simpa [List.isEmpty_iff] using h)]

/-- Witness for claim C9: the no-subscriber item with an active bare alert
still gets nothing written or sent. -/
theorem claim_C9_witness :
    notify_subscribers 0 witItemNoSubs [witAlert] [witUser] (fun _ => false) witPU
      = ⟨witPU, [], [], false⟩ :=
  claim_C9 0 witItemNoSubs [witAlert] [witUser] (fun _ => false) witPU rfl

/-! Lemmas about the minimum recomputation. -/

/-- A fold of min stays below its seed and below every folded element. -/
theorem foldl_min_le :
    ∀ (xs : List ℚ) (x : ℚ), xs.foldl min x ≤ x ∧ ∀ y ∈ xs, xs.foldl min x ≤ y := by
  intro xs
  induction xs with
  | nil => intro x; simp
  | cons a xs ih =>
    intro x
    rw [List.foldl_cons]
    refine ⟨(ih (min x a)).1.trans (min_le_left x a), ?_⟩
    intro y hy
    rcases List.mem_cons.1 hy with rfl | hy
    · exact (ih (min x y)).1.trans (min_le_right x y)
    · exact (ih (min x a)).2 y hy

/-- A fold of min lands on its seed or on a folded element. -/
theorem foldl_min_mem :
    ∀ (xs : List ℚ) (x : ℚ), xs.foldl min x = x ∨ xs.foldl min x ∈ xs := by
  intro xs
  induction xs with
  | nil => intro x; exact Or.inl rfl
  | cons a xs ih =>
    intro x
    rw [List.foldl_cons]
    rcases ih (min x a) with h | h
    · rcases min_choice x a with h' | h'
      · exact Or.inl (h.trans h')
      · exact Or.inr (by rw [h, h']; exact List.mem_cons_self a xs)
    · exact Or.inr (List.mem_cons_of_mem a h)

/-- pyMin of a nonempty list is some value. -/
theorem pyMin_isSome (l : List ℚ) (h : l ≠ []) : ∃ m, pyMin l = some m := by
  cases l with
  | nil => exact absurd rfl h
  | cons x xs => exact ⟨xs.foldl min x, rfl⟩

/-- pyMin returns an element of the list. -/
theorem pyMin_mem {l : List ℚ} {m : ℚ} (h : pyMin l = some m) : m ∈ l := by
  cases l with
  | nil => cases h
  | cons x xs =>
    cases h
    rcases foldl_min_mem xs x with h' | h'
    · rw [h']; exact List.mem_cons_self x xs
    · exact List.mem_cons_of_mem x h'

/-- pyMin is a lower bound of the list. -/
theorem pyMin_le {l : List ℚ} {m : ℚ} (h : pyMin l = some m) : ∀ x ∈ l, m ≤ x := by
  cases l with
  | nil => cases h
  | cons x xs =>
    cases h
    intro y hy
    rcases List.mem_cons.1 hy with rfl | hy
    · exact (foldl_min_le xs y).1
    · exact (foldl_min_le xs x).2 y hy

/-- Recomputing the minimum leaves the links untouched. -/
theorem updateCurrentPrice_links (it : Item) :
    (updateCurrentPrice it).retailer_links = it.retailer_links := by
  unfold updateCurrentPrice
  split <;> rfl

/-- Recomputing the minimum leaves the sale flag untouched. -/
theorem updateCurrentPrice_sale (it : Item) :
    (updateCurrentPrice it).is_on_sale = it.is_on_sale := by
  unfold updateCurrentPrice
  split <;> rfl

/-- After the minimum recomputation over links of which one has a known
price, current_price is the least known link price. -/
theorem saved_min_spec (itemX : Item) (i : Nat) (lk : RetailerLink) (v : ℚ)
    (hlk : itemX.retailer_links[i]? = some lk) (hv : lk.current_price = some v) :
    (updateCurrentPrice itemX).retailer_links.filterMap RetailerLink.current_price ≠ []
    ∧ ∃ m, (updateCurrentPrice itemX).current_price = some m
        ∧ m ∈ (updateCurrentPrice itemX).retailer_links.filterMap RetailerLink.current_price
        ∧ ∀ x ∈ (updateCurrentPrice itemX).retailer_links.filterMap RetailerLink.current_price,
            m ≤ x := by
  have hmem : lk ∈ itemX.retailer_links := List.getElem?_mem hlk
  have hne : itemX.retailer_links.filterMap RetailerLink.current_price ≠ [] :=
    List.ne_nil_of_mem (List.mem_filterMap.2 ⟨lk, hmem, hv⟩)
  obtain ⟨m, hm⟩ := pyMin_isSome _ hne
  refine ⟨by rw [updateCurrentPrice_links]; exact hne, m, ?_, ?_, ?_⟩
  · unfold updateCurrentPrice
    simp only [hm]
  · rw [updateCurrentPrice_links]
    exact pyMin_mem hm
  · rw [updateCurrentPrice_links]
    exact pyMin_le hm

/-- Claim C4: whenever check_price_for_link saves the item (which it does
exactly when some link price changed), the saved item's current_price is
the minimum of the known link prices, of which there is at least one. -/
theorem claim_C4 (now : Nat) (itemId url : String) (item? : Option Item) (price? : Option ℚ)
    (alerts : List Alert) (users : List User) (send : String → Bool) (it' : Item)
    (hsave : (check_price_for_link now itemId item? url price? alerts users send).saved_item
        = some it') :
    it'.retailer_links.filterMap RetailerLink.current_price ≠ []
    ∧ ∃ m, it'.current_price = some m
        ∧ m ∈ it'.retailer_links.filterMap RetailerLink.current_price
        ∧ ∀ x ∈ it'.retailer_links.filterMap RetailerLink.current_price, m ≤ x := by
  cases item? with
  | none => simp [check_price_for_link, CheckResult.noop] at hsave
  | some item =>
    cases price? with
    | none => simp [check_price_for_link, CheckResult.noop] at hsave
    | some price =>
      unfold check_price_for_link at hsave
      cases hidx : item.retailer_links.findIdx? (fun l => l.url == url) with
      | none =>
        simp only [hidx] at hsave
        simp [CheckResult.noop] at hsave
      | some index =>
        simp only [hidx] at hsave
        cases hget : item.retailer_links[index]? with
        | none =>
          simp only [hget] at hsave
          simp [CheckResult.noop] at hsave
        | some link0 =>
          simp only [hget] at hsave
          obtain ⟨hlen, -⟩ := List.getElem?_eq_some.1 hget
          cases hcp : link0.current_price with
          | none =>
            simp only [hcp, Option.some.injEq] at hsave
            subst hsave
            exact saved_min_spec _ index _ price (List.getElem?_set_self hlen) rfl
          | some old =>
            simp only [hcp] at hsave
            by_cases h1 : price = old
            · rw [if_pos h1] at hsave
              simp [CheckResult.noop] at hsave
            · rw [if_neg h1] at hsave
              by_cases h2 : price < old
              · rw [if_pos h2] at hsave
                simp only [Option.some.injEq] at hsave
                subst hsave
                refine saved_min_spec _ index _ price (List.getElem?_set_self ?_) rfl
                rw [List.length_set]
                exact hlen
              · rw [if_neg h2] at hsave
                simp only [Option.some.injEq] at hsave
                subst hsave
                exact saved_min_spec _ index _ price (List.getElem?_set_self hlen) rfl

/-- Witness for claim C4: a first observation of price 5 on the unpriced
link saves an item whose current_price is the least known link price. -/
theorem claim_C4_witness :
    ∃ it', (check_price_for_link 3 "i1" (some witItemNew) "http://a" (some 5) [] []
        (fun _ => false)).saved_item = some it'
      ∧ it'.retailer_links.filterMap RetailerLink.current_price ≠ []
      ∧ ∃ m, it'.current_price = some m
          ∧ m ∈ it'.retailer_links.filterMap RetailerLink.current_price
          ∧ ∀ x ∈ it'.retailer_links.filterMap RetailerLink.current_price, m ≤ x :=
  ⟨_, rfl, claim_C4 3 "i1" "http://a" (some witItemNew) (some 5) [] [] (fun _ => false) _ rfl⟩

/-- Claim C1: with the item found, a price extracted and the link located,
check_price_for_link reports a drop iff a stored price existed and the
extracted price is strictly lower; in that case it inserts exactly the
PriceUpdate with the old and new price and percentage change
(old - new) / old * 100, flags the saved link price_dropped and the saved
item on sale; an equal or higher extracted price inserts nothing, notifies
nobody, and leaves the link's price_dropped and the item's sale flag as
they were. -/
theorem claim_C1 (now : Nat) (itemId url : String) (p : ℚ) (item : Item) (i : Nat)
    (link0 : RetailerLink) (alerts : List Alert) (users : List User) (send : String → Bool)
    (hidx : item.retailer_links.findIdx? (fun l => l.url == url) = some i)
    (hget : item.retailer_links[i]? = some link0) :
    ((check_price_for_link now itemId (some item) url (some p) alerts users send).price_dropped
        = true ↔ ∃ old, link0.current_price = some old ∧ p < old)
    ∧ (∀ old, link0.current_price = some old → p < old →
        (check_price_for_link now itemId (some item) url (some p) alerts users
            send).inserted_updates
          = [{ item_id := itemId, retailer := link0.name, old_price := old, new_price := p,
               percentage_change := (old - p) / old * 100 }]
        ∧ ∃ it', (check_price_for_link now itemId (some item) url (some p) alerts users
              send).saved_item = some it'
            ∧ it'.is_on_sale = true
            ∧ ∃ lk, it'.retailer_links[i]? = some lk ∧ lk.price_dropped = true)
    ∧ (∀ old, link0.current_price = some old → ¬ p < old →
        (check_price_for_link now itemId (some item) url (some p) alerts users
            send).inserted_updates = []
        ∧ (check_price_for_link now itemId (some item) url (some p) alerts users
            send).price_dropped = false
        ∧ (check_price_for_link now itemId (some item) url (some p) alerts users
            send).notify = none
        ∧ ∀ it' lk,
            (check_price_for_link now itemId (some item) url (some p) alerts users
              send).saved_item = some it' →
            it'.retailer_links[i]? = some lk →
            lk.price_dropped = link0.price_dropped ∧ it'.is_on_sale = item.is_on_sale)
    ∧ (link0.current_price = none →
        (check_price_for_link now itemId (some item) url (some p) alerts users
            send).inserted_updates = []
        ∧ (check_price_for_link now itemId (some item) url (some p) alerts users
            send).price_dropped = false) := by
  obtain ⟨hlen, -⟩ := List.getElem?_eq_some.1 hget
  cases hcp : link0.current_price with
  | none =>
    simp only [check_price_for_link, hidx, hget, hcp]
    refine ⟨by simp, ?_, ?_, ?_⟩
    · intro old h hlt
      cases h
    · intro old h hnlt
      cases h
    · intro _
      exact ⟨by trivial, by trivial⟩
  | some old =>
    by_cases h1 : p = old
    · simp only [check_price_for_link, hidx, hget, hcp, if_pos h1, CheckResult.noop]
      refine ⟨by simp [h1], ?_, ?_, ?_⟩
      · intro old' h hlt
        injection h with h
        subst h
        rw [← h1] at hlt
        exact absurd hlt (lt_irrefl p)
      · intro old' h hnlt
        refine ⟨by trivial, by trivial, by trivial, ?_⟩
        intro it' lk hsave hlk
        cases hsave
      · intro h
        cases h
    · by_cases h2 : p < old
      · simp only [check_price_for_link, hidx, hget, hcp, if_neg h1, if_pos h2]
        refine ⟨by simp [h2], ?_, ?_, ?_⟩
        · intro old' h hlt
          injection h with h
          subst h
          refine ⟨by trivial, _, rfl, ?_, ?_⟩
          · rw [updateCurrentPrice_sale]
          · refine ⟨{ name := link0.name, url := link0.url, current_price := some p,
                      price_dropped := true, last_checked := some now }, ?_, rfl⟩
            simp only [updateCurrentPrice_links]
            refine List.getElem?_set_self ?_
            rw [List.length_set]
            exact hlen
        · intro old' h hnlt
          injection h with h
          subst h
          exact absurd h2 hnlt
        · intro h
          cases h
      · simp only [check_price_for_link, hidx, hget, hcp, if_neg h1, if_neg h2]
        refine ⟨by simp [h2], ?_, ?_, ?_⟩
        · intro old' h hlt
          injection h with h
          subst h
          exact absurd hlt h2
        · intro old' h hnlt
          refine ⟨by trivial, by trivial, by trivial, ?_⟩
          intro it' lk hsave hlk
          injection hsave with hsave
          subst hsave
          simp only [updateCurrentPrice_links] at hlk
          rw [List.getElem?_set_self hlen] at hlk
          injection hlk with hlk
          subst hlk
          exact ⟨rfl, updateCurrentPrice_sale _⟩
        · intro h
          cases h

/-- Witness for claim C1: the drop from a stored 100 to an extracted 80
inserts the expected PriceUpdate and flags the saved link and item. -/
theorem claim_C1_witness :
    ((check_price_for_link 7 "i1" (some witItem) "http://a" (some 80) [witAlert] [witUser]
        (fun _ => false)).price_dropped = true
      ↔ ∃ old, witLink.current_price = some old ∧ (80 : ℚ) < old)
    ∧ (check_price_for_link 7 "i1" (some witItem) "http://a" (some 80) [witAlert] [witUser]
        (fun _ => false)).inserted_updates
      = [{ item_id := "i1", retailer := witLink.name, old_price := 100, new_price := 80,
           percentage_change := (100 - 80) / 100 * 100 }] :=
  ⟨(claim_C1 7 "i1" "http://a" 80 witItem 0 witLink [witAlert] [witUser] (fun _ => false)
      (by decide) (by decide)).1,
   ((claim_C1 7 "i1" "http://a" 80 witItem 0 witLink [witAlert] [witUser] (fun _ => false)
      (by decide) (by decide)).2.1 100 rfl (by norm_num)).1⟩

/-- Claim C6 counterexample: a bare (hence matching) active alert whose
owner has no stored User record is skipped before its alerts are
evaluated, so no alert save happens at all and its last_triggered is never
updated — refuting the claim that every matching alert is updated. -/
theorem claim_C6_counterexample :
    alertMatches witAlert witPU = true
    ∧ (notify_subscribers 0 witItem [witAlert] [] (fun _ => false) witPU).saved_alerts = [] := by
  constructor <;> rfl

/-- Claim C6 (amended): in one notification pass, the receipts appended
carry pairwise-distinct user ids (each user is notified at most once);
every matching alert whose owner resolves to a stored user with a nonempty
email is written back with last_triggered set to the current instant, even
when the owner was already queued by another matching alert; and every
alert write stems from a matching alert, so alerts that do not match are
left unwritten with last_triggered unchanged.  Matching alerts of owners
that do not resolve, or resolve without an email, are skipped unwritten. -/
theorem claim_C6 (now : Nat) (item : Item) (alerts : List Alert) (users : List User)
    (send : String → Bool) (pu : PriceUpdate) :
    (∃ rs, (notify_subscribers now item alerts users send pu).price_update.users_notified
        = pu.users_notified ++ rs ∧ (rs.map UserNotified.user_id).Nodup)
    ∧ (∀ a ∈ alerts, item.subscribers ≠ [] → alertMatches a pu = true →
        (∃ u, findUser users a.user_id = some u ∧ u.email ≠ "") →
        triggeredAlert now a ∈ (notify_subscribers now item alerts users send pu).saved_alerts)
    ∧ (∀ b ∈ (notify_subscribers now item alerts users send pu).saved_alerts,
        ∃ a ∈ alerts, alertMatches a pu = true ∧ b = triggeredAlert now a) := by
  by_cases hsub : item.subscribers.isEmpty
  · unfold notify_subscribers
    rw [if_pos hsub]
    refine ⟨⟨[], by simp, by simp⟩, ?_, ?_⟩
    · intro a ha hne hm hu
      exact absurd (List.isEmpty_iff.1 hsub) hne
    · intro b hb
      simp at hb
  · unfold notify_subscribers
    rw [if_neg hsub]
    dsimp only
    refine ⟨⟨_, rfl, ?_⟩, ?_, ?_⟩
    · have hpres : ∀ (g : String × List Alert) (t : String × String × (Bool × List Alert)),
          (match findUser users g.1 with
            | none => none
            | some u => if u.email = "" then none
                else some (g.1, u.email, evalAlerts now {pu with notifications_sent := true} g.2))
            = some t → t.1 = g.1 := by
        intro g t hf
        cases hfu : findUser users g.1 with
        | none => simp only [hfu] at hf; cases hf
        | some u =>
          simp only [hfu] at hf
          by_cases he : u.email = ""
          · rw [if_pos he] at hf; cases hf
          · rw [if_neg he] at hf
            cases hf
            rfl
      rw [List.map_map]
      have h1 := (List.filter_sublist (l :=
        (groupByUser alerts).filterMap (fun g =>
          match findUser users g.1 with
          | none => none
          | some u => if u.email = "" then none
              else some (g.1, u.email, evalAlerts now {pu with notifications_sent := true} g.2)))
        (p := fun t => t.2.2.1)).map (fun t => t.1)
      have h2 := filterMap_fst_sublist _ hpres (groupByUser alerts)
      exact ((groupByUser_keys_nodup alerts).sublist (h1.trans h2))
    · intro a ha hne hmatch hu
      obtain ⟨u, hfu, he⟩ := hu
      obtain ⟨g, hg, hkey, hmem⟩ := groupByUser_self alerts a ha
      refine List.mem_flatMap.2
        ⟨(g.1, u.email, evalAlerts now {pu with notifications_sent := true} g.2),
          List.mem_filterMap.2 ⟨g, hg, ?_⟩, ?_⟩
      · rw [hkey]
        simp only [hfu]
        rw [if_neg he]
      · show triggeredAlert now a ∈ (evalAlerts now {pu with notifications_sent := true} g.2).2
        rw [evalAlerts_eq]
        refine List.mem_flatMap.2 ⟨a, hmem, ?_⟩
        exact mem_alertSaves_self now _ a ((alertMatches_set_sent a pu).trans hmatch)
    · intro b hb
      obtain ⟨t, ht, hbt⟩ := List.mem_flatMap.1 hb
      obtain ⟨g, hg, hfg⟩ := List.mem_filterMap.1 ht
      cases hfu : findUser users g.1 with
      | none => simp only [hfu] at hfg; cases hfg
      | some u =>
        simp only [hfu] at hfg
        by_cases he : u.email = ""
        · rw [if_pos he] at hfg; cases hfg
        · rw [if_neg he] at hfg
          cases hfg
          rw [show ((g.1, u.email, evalAlerts now {pu with notifications_sent := true} g.2)).2.2.2
              = (evalAlerts now {pu with notifications_sent := true} g.2).2 from rfl,
            evalAlerts_eq] at hbt
          obtain ⟨a, ha, hba⟩ := List.mem_flatMap.1 hbt
          obtain ⟨hbeq, hmatch⟩ := mem_alertSaves now _ a b hba
          exact ⟨a, groupByUser_src alerts g a hg ha,
            (alertMatches_set_sent a pu).symm.trans hmatch, hbeq⟩

/-- Witness for claim C6: with a resolvable subscriber, the matching bare
alert is written back with last_triggered set. -/
theorem claim_C6_witness :
    triggeredAlert 5 witAlert
      ∈ (notify_subscribers 5 witItem [witAlert] [witUser] (fun _ => false) witPU).saved_alerts :=
  (claim_C6 5 witItem [witAlert] [witUser] (fun _ => false) witPU).2.1 witAlert (by simp)
    (by simp [witItem]) rfl ⟨witUser, rfl, by simp [witUser]⟩

/-- Claim C10: the PriceUpdate state and the alert writes of a
notification pass are identical whatever results the mail transport
reports (the boolean from the send is discarded), and one receipt is
appended per attempted email, successful or not. -/
theorem claim_C10 (now : Nat) (item : Item) (alerts : List Alert) (users : List User)
    (pu : PriceUpdate) (send send' : String → Bool) :
    (notify_subscribers now item alerts users send pu).price_update
        = (notify_subscribers now item alerts users send' pu).price_update
    ∧ (notify_subscribers now item alerts users send pu).saved_alerts
        = (notify_subscribers now item alerts users send' pu).saved_alerts
    ∧ (notify_subscribers now item alerts users send pu).price_update.users_notified.length
        = pu.users_notified.length
          + (notify_subscribers now item alerts users send pu).emails_sent.length := by
  unfold notify_subscribers
  by_cases h : item.subscribers.isEmpty <;> simp [h]

/-- Witness for claim C10: an all-failing and an all-succeeding transport
leave the same PriceUpdate and alert writes, and the failing pass still
appended one receipt for its one attempted email. -/
theorem claim_C10_witness :
    (notify_subscribers 0 witItem [witAlert] [witUser] (fun _ => false) witPU).price_update
        = (notify_subscribers 0 witItem [witAlert] [witUser] (fun _ => true) witPU).price_update
    ∧ (notify_subscribers 0 witItem [witAlert] [witUser] (fun _ => false) witPU).saved_alerts
        = (notify_subscribers 0 witItem [witAlert] [witUser] (fun _ => true) witPU).saved_alerts
    ∧ (notify_subscribers 0 witItem [witAlert] [witUser] (fun _ => false)
          witPU).price_update.users_notified.length
        = witPU.users_notified.length
          + (notify_subscribers 0 witItem [witAlert] [witUser] (fun _ => false)
              witPU).emails_sent.length :=
  claim_C10 0 witItem [witAlert] [witUser] witPU (fun _ => false) (fun _ => true)

/-! Lemmas for the price parser round trip. -/

/-- The character of a decimal digit is a digit character, is not the dot,
and carries code 48 + d. -/
theorem digitChar_props (d : Nat) (hd : d < 10) :
    (Char.ofNat (48 + d)).isDigit = true ∧ ((Char.ofNat (48 + d)) == '.') = false
      ∧ (Char.ofNat (48 + d)).toNat = 48 + d := by
  interval_cases d <;> exact ⟨by decide, by decide, by decide⟩

/-- Every character of a rendered natural number is a digit and not the
dot. -/
theorem natChars_props (n : Nat) : ∀ c ∈ natChars n, c.isDigit = true ∧ (c == '.') = false := by
  intro c hc
  unfold natChars at hc
  rw [List.mem_map] at hc
  obtain ⟨d, hd, rfl⟩ := hc
  have hd10 : d < 10 := Nat.digits_lt_base (by norm_num) (List.mem_reverse.1 hd)
  exact ⟨(digitChar_props d hd10).1, (digitChar_props d hd10).2.1⟩

/-- Folding the digit accumulator over a rendered digit list recovers the
positional value. -/
theorem digitsFold_rev (ds : List Nat) :
    ∀ a : Nat, (∀ d ∈ ds, d < 10) →
      ((ds.reverse.map (fun d => Char.ofNat (48 + d))).foldl
          (fun n c => n * 10 + (c.toNat - 48)) a)
        = a * 10 ^ ds.length + Nat.ofDigits 10 ds := by
  induction ds with
  | nil => intro a h; simp
  | cons d ds ih =>
    intro a h
    rw [List.reverse_cons, List.map_append, List.foldl_append]
    rw [ih a (fun x hx => h x (List.mem_cons_of_mem d hx))]
    have hd : d < 10 := h d (List.mem_cons_self d ds)
    simp only [List.map_cons, List.map_nil, List.foldl_cons, List.foldl_nil,
      (digitChar_props d hd).2.2, Nat.ofDigits_cons, List.length_cons]
    have h48 : 48 + d - 48 = d := by omega
    rw [h48]
    ring

/-- Reading back the rendered characters of a natural number recovers it. -/
theorem digitsToNat_natChars (n : Nat) : digitsToNat (natChars n) = n := by
  unfold digitsToNat natChars
  rw [digitsFold_rev (Nat.digits 10 n) 0 (fun d hd => Nat.digits_lt_base (by norm_num) hd)]
  simp [Nat.ofDigits_digits]

/-- Leading zero characters do not change the accumulated value. -/
theorem digitsToNat_append_zeros (j : Nat) (ds : List Char) :
    digitsToNat (List.replicate j '0' ++ ds) = digitsToNat ds := by
  unfold digitsToNat
  rw [List.foldl_append]
  have hz : (List.replicate j '0').foldl (fun n c => n * 10 + (c.toNat - 48)) 0 = 0 := by
    induction j with
    | zero => rfl
    | succ j ih =>
      rw [List.replicate_succ, List.foldl_cons]
      simpa using ih
  rw [hz]

/-- A natural below 10 ^ k renders in at most k digit characters. -/
theorem natChars_len_le (m k : Nat) (h : m < 10 ^ k) : (natChars m).length ≤ k := by
  unfold natChars
  rw [List.length_map, List.length_reverse]
  rcases Nat.eq_zero_or_pos m with rfl | hm
  · simp
  · have h1 : 10 ^ (Nat.digits 10 m).length ≤ 10 * m :=
      Nat.base_pow_length_digits_le 10 m (by norm_num) (Nat.pos_iff_ne_zero.1 hm)
    have h2 : 10 * m < 10 ^ (k + 1) := by
      calc 10 * m < 10 * 10 ^ k := by omega
      _ = 10 ^ (k + 1) := by ring
    have h4 : (Nat.digits 10 m).length < k + 1 :=
      (Nat.pow_lt_pow_iff_right (by norm_num)).1 (lt_of_le_of_lt h1 h2)
    omega

/-- A positive natural renders in at least one character. -/
theorem natChars_ne_nil (m : Nat) (hm : m ≠ 0) : natChars m ≠ [] := by
  unfold natChars
  simp [Nat.digits_ne_nil_iff_ne_zero, hm]

/-- Splitting a dot-free string yields the single whole segment. -/
theorem splitDot_no_dot (s : List Char) (h : ∀ c ∈ s, (c == '.') = false) :
    splitDot s = [s] := by
  induction s with
  | nil => rfl
  | cons c rest ih =>
    have hc : (c == '.') = false := h c (List.mem_cons_self c rest)
    unfold splitDot
    rw [hc, ih (fun x hx => h x (List.mem_cons_of_mem c hx))]
    simp

/-- Splitting around a single dot separates the two segments. -/
theorem splitDot_append (a b : List Char) (h : ∀ c ∈ a, (c == '.') = false) :
    splitDot (a ++ '.' :: b) = a :: splitDot b := by
  induction a with
  | nil =>
    show splitDot ('.' :: b) = [] :: splitDot b
    simp only [splitDot]
    simp
  | cons c a ih =>
    have hc : (c == '.') = false := h c (List.mem_cons_self c a)
    show splitDot (c :: (a ++ '.' :: b)) = (c :: a) :: splitDot b
    simp only [splitDot]
    rw [hc, ih (fun x hx => h x (List.mem_cons_of_mem c hx))]
    simp

/-- Values produced by the float model are nonnegative. -/
theorem pyFloat?_nonneg (s : List Char) (q : ℚ) (h : pyFloat? s = some q) : 0 ≤ q := by
  unfold pyFloat? at h
  split at h
  · split at h
    · injection h with h
      rw [← h]
      positivity
    · injection h with h
      rw [← h]
      positivity
    · cases h
  · cases h

/-- Values produced by parse_price are nonnegative. -/
theorem parse_price_nonneg (s : List Char) (q : ℚ) (h : parse_price s = some q) : 0 ≤ q := by
  unfold parse_price at h
  split at h
  · cases h
  · exact pyFloat?_nonneg _ q h

/-- parse_price on digits, a dot, and more digits yields the fixed-point
value. -/
theorem parse_intFrac (ip frac : List Char) (hip_ne : ip ≠ [])
    (hip : ∀ c ∈ ip, c.isDigit = true ∧ (c == '.') = false)
    (hfrac : ∀ c ∈ frac, c.isDigit = true ∧ (c == '.') = false) :
    parse_price (ip ++ '.' :: frac)
      = some ((digitsToNat ip : ℚ) + (digitsToNat frac : ℚ) / (10 : ℚ) ^ frac.length) := by
  unfold parse_price
  rw [if_neg (by simp)]
  have hstrip : stripPrice (ip ++ '.' :: frac) = ip ++ '.' :: frac := by
    unfold stripPrice
    rw [List.filter_eq_self]
    intro c hc
    unfold priceChar
    rcases List.mem_append.1 hc with hc | hc
    · simp [(hip c hc).1]
    · rcases List.mem_cons.1 hc with rfl | hc
      · decide
      · simp [(hfrac c hc).1]
  rw [hstrip]
  unfold pyFloat?
  rw [if_pos ?_]
  · rw [splitDot_append ip frac (fun c hc => (hip c hc).2),
      splitDot_no_dot frac (fun c hc => (hfrac c hc).2)]
  · obtain ⟨c, hc⟩ := List.exists_mem_of_ne_nil ip hip_ne
    exact List.any_eq_true.2 ⟨c, List.mem_append_left _ hc, (hip c hc).1⟩

/-- parse_price on a pure digit string yields its value. -/
theorem parse_digits (ip : List Char) (hip_ne : ip ≠ [])
    (hip : ∀ c ∈ ip, c.isDigit = true ∧ (c == '.') = false) :
    parse_price ip = some (digitsToNat ip : ℚ) := by
  unfold parse_price
  rw [if_neg (by simp [List.isEmpty_iff, hip_ne])]
  have hstrip : stripPrice ip = ip := by
    unfold stripPrice
    rw [List.filter_eq_self]
    intro c hc
    unfold priceChar
    simp [(hip c hc).1]
  rw [hstrip]
  unfold pyFloat?
  rw [if_pos ?_]
  · rw [splitDot_no_dot ip (fun c hc => (hip c hc).2)]
  · obtain ⟨c, hc⟩ := List.exists_mem_of_ne_nil ip hip_ne
    exact List.any_eq_true.2 ⟨c, hc, (hip c hc).1⟩

/-- Parsing the fixed-point rendering of n / 10 ^ k recovers that
rational. -/
theorem parse_renderDecAux (n k : Nat) :
    parse_price (renderDecAux n k) = some ((n : ℚ) / (10 : ℚ) ^ k) := by
  have hipne : renderIp n k ≠ [] := by
    unfold renderIp
    split
    · simp
    · next h => exact natChars_ne_nil _ h
  have hipprops : ∀ c ∈ renderIp n k, c.isDigit = true ∧ (c == '.') = false := by
    unfold renderIp
    split
    · intro c hc
      rw [List.mem_singleton] at hc
      subst hc
      exact ⟨by decide, by decide⟩
    · exact natChars_props _
  have hipval : digitsToNat (renderIp n k) = n / 10 ^ k := by
    unfold renderIp
    split
    · next h => rw [h]; decide
    · exact digitsToNat_natChars _
  unfold renderDecAux
  by_cases hk : k = 0
  · subst hk
    rw [if_pos rfl, parse_digits _ hipne hipprops, hipval]
    norm_num
  · rw [if_neg hk]
    have hfr : ∀ c ∈ List.replicate (k - (natChars (n % 10 ^ k)).length) '0'
        ++ natChars (n % 10 ^ k), c.isDigit = true ∧ (c == '.') = false := by
      intro c hc
      rcases List.mem_append.1 hc with hc | hc
      · have hc0 := List.eq_of_mem_replicate hc
        subst hc0
        exact ⟨by decide, by decide⟩
      · exact natChars_props _ c hc
    rw [parse_intFrac _ _ hipne hipprops hfr]
    have hlenfr : (List.replicate (k - (natChars (n % 10 ^ k)).length) '0'
        ++ natChars (n % 10 ^ k)).length = k := by
      rw [List.length_append, List.length_replicate]
      have hle : (natChars (n % 10 ^ k)).length ≤ k :=
        natChars_len_le _ k (Nat.mod_lt n (by positivity))
      omega
    rw [digitsToNat_append_zeros, digitsToNat_natChars, hipval, hlenfr]
    congr 1
    have h10 : ((10 : ℚ) ^ k) ≠ 0 := by positivity
    field_simp
    have hdm : (n / 10 ^ k) * 10 ^ k + n % 10 ^ k = n := by
      conv_rhs => rw [← Nat.div_add_mod n (10 ^ k)]
      ring
    exact_mod_cast hdm

/-- Parsing the decimal rendering of a parsed price recovers the same
value. -/
theorem parse_renderDec (s : List Char) (q : ℚ) (k : Nat) (hp : parse_price s = some q)
    (hden : (q * (10 : ℚ) ^ k).den = 1) : parse_price (renderDec q k) = some q := by
  have hq : 0 ≤ q := parse_price_nonneg s q hp
  unfold renderDec
  rw [parse_renderDecAux]
  have hx0 : (0 : ℚ) ≤ q * 10 ^ k := mul_nonneg hq (by positivity)
  have hnum0 : 0 ≤ (q * (10 : ℚ) ^ k).num := Rat.num_nonneg.2 hx0
  have hcast : (((q * (10 : ℚ) ^ k).num : ℤ) : ℚ) = q * 10 ^ k := by
    have hd := Rat.num_div_den (q * (10 : ℚ) ^ k)
    rw [hden] at hd
    simpa using hd
  have h1 : (((q * (10 : ℚ) ^ k).num.toNat : Nat) : ℚ) = q * 10 ^ k := by
    rw [← hcast]
    exact_mod_cast congrArg (fun z : ℤ => (z : ℚ)) (Int.toNat_of_nonneg hnum0)
  rw [h1]
  congr 1
  field_simp

/-- Claim C8: re-normalizing the decimal rendering of a parsed price
yields the same value (idempotence of normalization); grouping commas do
not change the magnitude, so the dollar text 1,234.56 parses to 1234.56;
and empty or digit-free input parses to None instead of raising. -/
theorem claim_C8 :
    (∀ (s : List Char) (q : ℚ) (k : Nat), parse_price s = some q →
        (q * (10 : ℚ) ^ k).den = 1 → parse_price (renderDec q k) = some q)
    ∧ parse_price ['$', '1', ',', '2', '3', '4', '.', '5', '6'] = some (1234.56 : ℚ)
    ∧ parse_price [] = none
    ∧ (∀ s : List Char, (∀ c ∈ s, c.isDigit = false) → parse_price s = none) := by
  refine ⟨fun s q k hp hden => parse_renderDec s q k hp hden, ?_, rfl, ?_⟩
  · simp [parse_price, stripPrice, priceChar, pyFloat?, splitDot, digitsToNat]
    norm_num
  · intro s hs
    unfold parse_price
    split
    · rfl
    · unfold pyFloat?
      have hany : ((stripPrice s).any Char.isDigit) = false := by
        rw [List.any_eq_false]
        intro c hc
        have hcs : c ∈ s := List.mem_of_mem_filter hc
        simp [hs c hcs]
      simp [hany]

/-- Witness for claim C8: the parsed text 8.5 renders back to itself, and
letters parse to None. -/
theorem claim_C8_witness :
    parse_price (renderDec (8.5 : ℚ) 1) = some (8.5 : ℚ) ∧ parse_price ['a', 'b'] = none :=
  ⟨claim_C8.1 ['8', '.', '5'] (8.5 : ℚ) 1
      (by simp [parse_price, stripPrice, priceChar, pyFloat?, splitDot, digitsToNat]; norm_num)
      (by norm_num),
   claim_C8.2.2.2 ['a', 'b'] (by decide)⟩

end BIFL
